import Mathlib

/-!
Verification of the real-time chat subsystem (SocketService): session
directory, room membership, message delivery, notification fanout with
deduplication, and read-receipt tracking.  The definitions below are a
shallow embedding of the handlers in the source file; timestamps are
modelled by a logical clock that yields a fresh, strictly larger value
at every observation, and fallible persistence steps are modelled with
Except together with an explicit failure oracle.
-/

namespace TextileChat

/-- Message type tag: TEXT, IMAGE or FILE. -/
inductive MessageType
  | TEXT
  | IMAGE
  | FILE
  deriving DecidableEq, Repr

/-- Notification type tag. -/
inductive NotificationType
  | NEW_MESSAGE
  | MENTION
  | SYSTEM
  | PERFORMANCE_ALERT
  deriving DecidableEq, Repr

/-- A Conversation row: identifier and update timestamp. -/
structure ConversationRow where
  id : Nat
  updatedAt : Int
  deriving DecidableEq, Repr

/-- A ConversationParticipant row. -/
structure ParticipantRow where
  id : Nat
  conversationId : Nat
  userId : Nat
  isActive : Bool
  lastReadAt : Option Int
  deriving DecidableEq, Repr

/-- A Message row. -/
structure MessageRow where
  id : Nat
  conversationId : Nat
  senderId : Nat
  content : List Char
  messageType : MessageType
  createdAt : Int
  deriving DecidableEq, Repr

/-- A MessageReadReceipt row: unique per (messageId, userId). -/
structure ReceiptRow where
  messageId : Nat
  userId : Nat
  deriving DecidableEq, Repr

/-- The structured payload attached to a NEW_MESSAGE notification. -/
structure NotifPayload where
  conversationId : Nat
  messageId : Nat
  senderId : Nat
  deriving DecidableEq, Repr

/-- A Notification row. -/
structure NotificationRow where
  id : Nat
  userId : Nat
  type : NotificationType
  title : List Char
  content : List Char
  isRead : Bool
  payload : Option NotifPayload
  createdAt : Int
  deriving DecidableEq, Repr

/-- A broadcast-group key: a conversation room or a user's personal room. -/
inductive RoomKey
  | conv (id : Nat)
  | user (id : Nat)
  deriving DecidableEq, Repr

/-- The system state: logical clock, id counters, the five persisted
tables, and the broadcast-group membership pairs (room, socketId). -/
structure SysState where
  now : Int
  nextMessageId : Nat
  nextNotificationId : Nat
  conversations : List ConversationRow
  participants : List ParticipantRow
  messages : List MessageRow
  receipts : List ReceiptRow
  notifications : List NotificationRow
  rooms : List (RoomKey × String)
  deriving DecidableEq, Repr

/-- The authenticated per-connection context (socket id, userId, username). -/
structure SocketCtx where
  id : String
  userId : Nat
  username : List Char
  deriving DecidableEq, Repr

/-- Server-to-client events of the wire contract. -/
inductive ChatEvent
  | newMessage (id conversationId senderId : Nat) (content : List Char)
      (messageType : MessageType) (createdAt : Int)
  | messageError (error : List Char)
  | conversationsJoined (ids : List Nat)
  | userTyping (userId : Nat) (username : List Char) (conversationId : Nat)
  | userStoppedTyping (userId : Nat) (conversationId : Nat)
  | messagesRead (userId : Nat) (messageIds : List Nat) (conversationId : Nat)
  | newNotification (n : NotificationRow)
  deriving DecidableEq, Repr

/-- Where an emitted event is addressed: a single socket, a whole room,
or a room minus the emitting socket. -/
inductive EmitTarget
  | direct (socketId : String)
  | room (key : RoomKey)
  | roomExcept (key : RoomKey) (senderId : String)
  deriving DecidableEq, Repr

/-- One emitted event with its target. -/
abbrev Emit := EmitTarget × ChatEvent

/-- Observe the clock: return the current time and advance, so that every
timestamp observation is strictly later than the previous one. -/
def freshTime (st : SysState) : Int × SysState :=
  (st.now, { st with now := st.now + 1 })

/-- Shift the clock forward, modelling real time passing between requests. -/
def advanceClock (st : SysState) (d : Int) : SysState :=
  { st with now := st.now + d }

/-- The participant-lookup predicate used by the handlers: an active
participant row for the given (conversationId, userId). -/
def participantMatches (conversationId userId : Nat) (p : ParticipantRow) : Bool :=
  p.conversationId == conversationId && p.userId == userId && p.isActive

/-- Whether an active participant row exists for (conversationId, userId). -/
def hasActiveParticipant (st : SysState) (conversationId userId : Nat) : Bool :=
  st.participants.any (participantMatches conversationId userId)

/-- Five minutes in milliseconds, the notification deduplication window. -/
def fiveMinutesMs : Int := 5 * 60 * 1000

/-- The data of a notification to create. -/
structure NotifData where
  type : NotificationType
  title : List Char
  content : List Char
  payload : Option NotifPayload
  deriving DecidableEq, Repr

/-- Whether a stored notification has the given (userId, type, title, content). -/
def notifMatches (userId : Nat) (d : NotifData) (n : NotificationRow) : Bool :=
  n.userId == userId && decide (n.type = d.type) && n.title == d.title &&
    n.content == d.content

/-- The duplicate check of createNotification: same tuple, created within
the last five minutes relative to time t. -/
def dupPred (userId : Nat) (d : NotifData) (t : Int) (n : NotificationRow) : Bool :=
  notifMatches userId d n && decide (t - fiveMinutesMs ≤ n.createdAt)

/-- Number of stored notifications with the given (userId, type, title, content). -/
def notifCount (l : List NotificationRow) (userId : Nat) (d : NotifData) : Nat :=
  l.countP (notifMatches userId d)

/-- createNotification: if a matching notification exists within the last
five minutes, return it with no insert and no emission; otherwise insert
a new row and emit new_notification to the recipient's personal room.
The fail flag models a thrown persistence error. -/
def createNotification (st : SysState) (userId : Nat) (d : NotifData) (fail : Bool) :
    Except Unit (SysState × List Emit × NotificationRow) :=
  if fail then Except.error () else
  let p := freshTime st
  match p.2.notifications.find? (dupPred userId d p.1) with
  | some n => Except.ok (p.2, [], n)
  | none =>
    let q := freshTime p.2
    let row : NotificationRow :=
      { id := q.2.nextNotificationId, userId := userId, type := d.type,
        title := d.title, content := d.content, isRead := false,
        payload := d.payload, createdAt := q.1 }
    let st3 := { q.2 with
      notifications := q.2.notifications ++ [row],
      nextNotificationId := q.2.nextNotificationId + 1 }
    Except.ok (st3, [(EmitTarget.room (RoomKey.user userId), ChatEvent.newNotification row)], row)

/-- The send_message error text emitted when the sender is not an active
participant of the target conversation. -/
def notAuthorizedError : List Char :=
  "Not authorized to send message to this conversation".data

/-- The generic send_message error text emitted by the outer catch. -/
def sendFailedError : List Char := "Failed to send message".data

/-- The ellipsis marker appended to truncated notification content. -/
def ellipsis : List Char := ['.', '.', '.']

/-- Notification content for a message body: the first 100 characters,
with an ellipsis appended when the body is longer than 100 characters. -/
def truncate100 (content : List Char) : List Char :=
  content.take 100 ++ (if 100 < content.length then ellipsis else [])

/-- Notification title referencing the sender. -/
def newMessageTitle (username : List Char) : List Char :=
  "New message from ".data ++ username

/-- The payload of a send_message request; messageType defaults to TEXT. -/
structure SendData where
  conversationId : Nat
  content : List Char
  messageType? : Option MessageType
  deriving DecidableEq, Repr

/-- The sequential notification-creation loop over the other active
participants: stops (throwing) at the first failing creation. -/
def notifyLoop (st : SysState) (ps : List ParticipantRow) (d : NotifData)
    (notifFail : Nat → Bool) : SysState × List Emit × Bool :=
  match ps with
  | [] => (st, [], true)
  | p :: rest =>
    match createNotification st p.userId d (notifFail p.userId) with
    | Except.error _ => (st, [], false)
    | Except.ok (st1, es, _) =>
      let r := notifyLoop st1 rest d notifFail
      (r.1, es ++ r.2.1, r.2.2)

/-- handleSendMessage: authorize against the participant table, persist
the message, bump the conversation's update timestamp, broadcast
new_message to the conversation room, then create a NEW_MESSAGE
notification for every other active participant.  The Bool result is
false when an exception escaped (conversation update or notification
creation failed); partial effects made before the failure remain. -/
def handleSendMessage (st : SysState) (sock : SocketCtx) (data : SendData)
    (notifFail : Nat → Bool) : SysState × List Emit × Bool :=
  let conversationId := data.conversationId
  match st.participants.find? (participantMatches conversationId sock.userId) with
  | none =>
    (st, [(EmitTarget.direct sock.id, ChatEvent.messageError notAuthorizedError)], true)
  | some _ =>
    let p := freshTime st
    let message : MessageRow :=
      { id := p.2.nextMessageId, conversationId := conversationId,
        senderId := sock.userId, content := data.content,
        messageType := data.messageType?.getD MessageType.TEXT, createdAt := p.1 }
    let st2 := { p.2 with
      messages := p.2.messages ++ [message],
      nextMessageId := p.2.nextMessageId + 1 }
    if st2.conversations.any (fun c => c.id == conversationId) then
      let q := freshTime st2
      let st4 := { q.2 with conversations := q.2.conversations.map (fun c =>
        if c.id == conversationId then { c with updatedAt := q.1 } else c) }
      let broadcast : Emit :=
        (EmitTarget.room (RoomKey.conv conversationId),
         ChatEvent.newMessage message.id message.conversationId message.senderId
           message.content message.messageType message.createdAt)
      let others := st4.participants.filter (fun p =>
        p.conversationId == conversationId && p.userId != sock.userId && p.isActive)
      let d : NotifData :=
        { type := NotificationType.NEW_MESSAGE,
          title := newMessageTitle sock.username,
          content := truncate100 data.content,
          payload := some { conversationId := conversationId,
                            messageId := message.id, senderId := sock.userId } }
      let r := notifyLoop st4 others d notifFail
      (r.1, broadcast :: r.2.1, r.2.2)
    else
      (st2, [], false)

/-- The send_message event handler: runs handleSendMessage and, when an
exception escaped, additionally emits the generic message_error to the
sending socket (the catch block). -/
def onSendMessage (st : SysState) (sock : SocketCtx) (data : SendData)
    (notifFail : Nat → Bool) : SysState × List Emit :=
  let r := handleSendMessage st sock data notifFail
  if r.2.2 then (r.1, r.2.1)
  else (r.1, r.2.1 ++ [(EmitTarget.direct sock.id, ChatEvent.messageError sendFailedError)])

/-- socket.join: add (key, socketId) to the membership, a no-op if present. -/
def joinRoom (rooms : List (RoomKey × String)) (key : RoomKey) (sid : String) :
    List (RoomKey × String) :=
  if rooms.any (fun e => decide (e.1 = key) && e.2 == sid) then rooms
  else rooms ++ [(key, sid)]

/-- The join_conversations handler: keep exactly the requested ids for
which an active participant row exists, join those rooms, and emit
conversations_joined with the kept ids. -/
def onJoinConversations (st : SysState) (sock : SocketCtx) (ids : List Nat) :
    SysState × List Emit :=
  let valid := (st.participants.filter (fun p =>
      p.userId == sock.userId && ids.contains p.conversationId && p.isActive)).map
    (fun p => p.conversationId)
  let rooms2 := valid.foldl (fun r i => joinRoom r (RoomKey.conv i) sock.id) st.rooms
  ({ st with rooms := rooms2 },
   [(EmitTarget.direct sock.id, ChatEvent.conversationsJoined valid)])

/-- The typing_start handler: broadcast user_typing to the conversation
room excluding the sender, with no participant check. -/
def onTypingStart (st : SysState) (sock : SocketCtx) (conversationId : Nat) :
    SysState × List Emit :=
  (st, [(EmitTarget.roomExcept (RoomKey.conv conversationId) sock.id,
         ChatEvent.userTyping sock.userId sock.username conversationId)])

/-- The typing_stop handler: broadcast user_stopped_typing to the
conversation room excluding the sender, with no participant check. -/
def onTypingStop (st : SysState) (sock : SocketCtx) (conversationId : Nat) :
    SysState × List Emit :=
  (st, [(EmitTarget.roomExcept (RoomKey.conv conversationId) sock.id,
         ChatEvent.userStoppedTyping sock.userId conversationId)])

/-- The payload of a mark_messages_read request. -/
structure MarkReadData where
  conversationId : Nat
  messageIds : List Nat
  deriving DecidableEq, Repr

/-- Whether a receipt row is for the given (messageId, userId) pair. -/
def receiptMatches (messageId userId : Nat) (r : ReceiptRow) : Bool :=
  r.messageId == messageId && r.userId == userId

/-- Number of receipt rows stored for the given (messageId, userId) pair. -/
def receiptCount (l : List ReceiptRow) (messageId userId : Nat) : Nat :=
  l.countP (receiptMatches messageId userId)

/-- createMany with skipDuplicates: insert one receipt per listed message
id, skipping pairs that already exist (also within the same batch). -/
def createManyReceipts (receipts : List ReceiptRow) (ids : List Nat) (userId : Nat) :
    List ReceiptRow :=
  match ids with
  | [] => receipts
  | mid :: rest =>
    let receipts2 :=
      if receipts.any (receiptMatches mid userId) then receipts
      else receipts ++ [{ messageId := mid, userId := userId }]
    createManyReceipts receipts2 rest userId

/-- handleMarkMessagesRead: require an active participant row (silently
no-op otherwise), insert the receipts idempotently, refresh the caller's
lastReadAt, and broadcast messages_read to the rest of the room. -/
def handleMarkMessagesRead (st : SysState) (sock : SocketCtx) (data : MarkReadData) :
    SysState × List Emit :=
  match st.participants.find? (participantMatches data.conversationId sock.userId) with
  | none => (st, [])
  | some participant =>
    let st1 := { st with
      receipts := createManyReceipts st.receipts data.messageIds sock.userId }
    let p := freshTime st1
    let st3 := { p.2 with participants := p.2.participants.map (fun q =>
      if q.id == participant.id then { q with lastReadAt := some p.1 } else q) }
    (st3, [(EmitTarget.roomExcept (RoomKey.conv data.conversationId) sock.id,
            ChatEvent.messagesRead sock.userId data.messageIds data.conversationId)])

/-- Map.get with a default empty list, as used by the session directory. -/
def mapGet (m : List (Nat × List String)) (k : Nat) : List String :=
  ((m.find? (fun e => e.1 == k)).map (fun e => e.2)).getD []

/-- Map.set: replace the value at an existing key, or append the entry. -/
def mapSet (m : List (Nat × List String)) (k : Nat) (v : List String) :
    List (Nat × List String) :=
  if m.any (fun e => e.1 == k) then
    m.map (fun e => if e.1 == k then (k, v) else e)
  else m ++ [(k, v)]

/-- Map.delete: remove the entry for a key. -/
def mapDelete (m : List (Nat × List String)) (k : Nat) : List (Nat × List String) :=
  m.filter (fun e => e.1 != k)

/-- addUserSocket: append the socket id to the user's connection list. -/
def addUserSocket (m : List (Nat × List String)) (userId : Nat) (socketId : String) :
    List (Nat × List String) :=
  mapSet m userId (mapGet m userId ++ [socketId])

/-- removeUserSocket: drop the socket id; if the user's list becomes
empty, delete the user's entry entirely. -/
def removeUserSocket (m : List (Nat × List String)) (userId : Nat) (socketId : String) :
    List (Nat × List String) :=
  let updated := (mapGet m userId).filter (fun sid => sid != socketId)
  if updated.isEmpty then mapDelete m userId else mapSet m userId updated

/-- isUserOnline: whether the directory holds an entry for the user. -/
def isUserOnline (m : List (Nat × List String)) (userId : Nat) : Bool :=
  m.any (fun e => e.1 == userId)

/-- getOnlineUsers: the keys of the directory. -/
def getOnlineUsers (m : List (Nat × List String)) : List Nat :=
  m.map (fun e => e.1)

/-- The session-directory invariant: no empty connection lists are
retained, and each user has at most one entry. -/
def SessInv (m : List (Nat × List String)) : Prop :=
  (∀ e ∈ m, e.2 ≠ []) ∧ (m.map Prod.fst).Nodup

/-- The sockets of a broadcast group. -/
def roomMembers (rooms : List (RoomKey × String)) (key : RoomKey) : List String :=
  (rooms.filter (fun e => decide (e.1 = key))).map (fun e => e.2)

/-- The sockets an emitted event is delivered to, given the current
group membership: io.to(room) reaches the whole room, socket.to(room)
the room minus the sender, and socket.emit just the one socket. -/
def deliveredTo (rooms : List (RoomKey × String)) : EmitTarget → List String
  | EmitTarget.direct sid => [sid]
  | EmitTarget.room key => roomMembers rooms key
  | EmitTarget.roomExcept key sid => (roomMembers rooms key).filter (fun x => x != sid)

/-- Whether an event is a new_message broadcast. -/
def isNewMessageEvent : ChatEvent → Bool
  | ChatEvent.newMessage _ _ _ _ _ _ => true
  | _ => false

/-- Whether an event is a user_typing broadcast. -/
def isUserTypingEvent : ChatEvent → Bool
  | ChatEvent.userTyping _ _ _ => true
  | _ => false

/-! General bridging lemmas between the Bool-valued list operations used
by the handlers. -/

lemma find?_eq_none_of_any_eq_false {α : Type} {l : List α} {p : α → Bool}
    (h : l.any p = false) : l.find? p = none := by
  rw [List.find?_eq_none]
  intro x hx hpx
  have : l.any p = true := List.any_eq_true.mpr ⟨x, hx, hpx⟩
  rw [h] at this
  exact Bool.false_ne_true this

lemma exists_find?_eq_some_of_any {α : Type} {l : List α} {p : α → Bool}
    (h : l.any p = true) : ∃ x, l.find? p = some x := by
  have hs : (l.find? p).isSome := by
    rw [List.find?_isSome]
    exact List.any_eq_true.mp h
  exact Option.isSome_iff_exists.mp hs

lemma find?_append_of_none {α : Type} {l₁ l₂ : List α} {p : α → Bool}
    (h : l₁.find? p = none) : (l₁ ++ l₂).find? p = l₂.find? p := by
  induction l₁ with
  | nil => simp
  | cons a l ih =>
    rw [List.find?_cons] at h
    cases hpa : p a with
    | true => rw [hpa] at h; exact absurd h (by simp)
    | false =>
      rw [hpa] at h
      show List.find? p (a :: (l ++ l₂)) = List.find? p l₂
      rw [List.find?_cons, hpa]
      exact ih h

/-! Behaviour of the handlers for a sender without an active participant
row, shared by the authorization claims. -/

lemma onSendMessage_not_participant (st : SysState) (sock : SocketCtx) (data : SendData)
    (notifFail : Nat → Bool)
    (h : hasActiveParticipant st data.conversationId sock.userId = false) :
    onSendMessage st sock data notifFail =
      (st, [(EmitTarget.direct sock.id, ChatEvent.messageError notAuthorizedError)]) := by
  have hf : st.participants.find? (participantMatches data.conversationId sock.userId)
      = none := find?_eq_none_of_any_eq_false h
  simp [onSendMessage, handleSendMessage, hf]

lemma markRead_not_participant (st : SysState) (sock : SocketCtx) (data : MarkReadData)
    (h : hasActiveParticipant st data.conversationId sock.userId = false) :
    handleMarkMessagesRead st sock data = (st, []) := by
  have hf : st.participants.find? (participantMatches data.conversationId sock.userId)
      = none := find?_eq_none_of_any_eq_false h
  simp [handleMarkMessagesRead, hf]

/-- C1: a send_message from a connection whose user holds no active
participant row for the target conversation is rejected: the state
(message store and conversation timestamps included) is unchanged, and
the only emission is a message_error authorization event addressed
directly to the sending socket. -/
theorem c1_send_unauthorized_rejected (st : SysState) (sock : SocketCtx) (data : SendData)
    (notifFail : Nat → Bool)
    (h : hasActiveParticipant st data.conversationId sock.userId = false) :
    (onSendMessage st sock data notifFail).1 = st ∧
    (onSendMessage st sock data notifFail).2 =
      [(EmitTarget.direct sock.id, ChatEvent.messageError notAuthorizedError)] := by
  rw [onSendMessage_not_participant st sock data notifFail h]
  exact ⟨rfl, rfl⟩

/-- Concrete state for the C1 witness: one conversation with one active
participant (user 1); user 9 is no participant. -/
def c1St : SysState :=
  { now := 0, nextMessageId := 1, nextNotificationId := 1,
    conversations := [{ id := 1, updatedAt := 0 }],
    participants := [{ id := 1, conversationId := 1, userId := 1,
                       isActive := true, lastReadAt := none }],
    messages := [], receipts := [], notifications := [], rooms := [] }

/-- Witness for C1 at a concrete state and sender. -/
theorem c1_witness :
    hasActiveParticipant c1St 1 9 = false ∧
    (onSendMessage c1St { id := "s9", userId := 9, username := [] }
        { conversationId := 1, content := [], messageType? := none } (fun _ => false)).1
      = c1St :=
  ⟨by decide,
   (c1_send_unauthorized_rejected c1St { id := "s9", userId := 9, username := [] }
      { conversationId := 1, content := [], messageType? := none } (fun _ => false)
      (by decide)).1⟩

/-! C9: the typing handlers perform no participant check. -/

/-- Concrete state for C9: conversation 1 has user 1 as its only active
participant; a socket of user 1 sits in the conversation room; user 2
holds no participant row at all. -/
def c9St : SysState :=
  { now := 0, nextMessageId := 1, nextNotificationId := 1,
    conversations := [{ id := 1, updatedAt := 0 }],
    participants := [{ id := 1, conversationId := 1, userId := 1,
                       isActive := true, lastReadAt := none }],
    messages := [], receipts := [], notifications := [],
    rooms := [(RoomKey.conv 1, "sA")] }

/-- Counterexample to C9 as stated: user 2 holds no active participant
row for conversation 1, yet their typing_start is broadcast as a
user_typing event to the conversation room and is delivered to the
member socket sA. -/
theorem c9_counterexample :
    hasActiveParticipant c9St 1 2 = false ∧
    (onTypingStart c9St { id := "s2", userId := 2, username := [] } 1).2 =
      [(EmitTarget.roomExcept (RoomKey.conv 1) "s2", ChatEvent.userTyping 2 [] 1)] ∧
    deliveredTo c9St.rooms (EmitTarget.roomExcept (RoomKey.conv 1) "s2") = ["sA"] := by
  refine ⟨by decide, rfl, by decide⟩

/-- C9 amended: send_message and mark_messages_read take effect only
while the sender holds an active participant row, but the typing
handlers perform no participant check at all: typing_start from a user
with no active participant row still broadcasts user_typing to the
conversation's group (excluding the sender). -/
theorem c9_amended_event_gating (st : SysState) (sock : SocketCtx)
    (sdata : SendData) (mdata : MarkReadData) (cid : Nat) (notifFail : Nat → Bool)
    (h1 : hasActiveParticipant st sdata.conversationId sock.userId = false)
    (h2 : hasActiveParticipant st mdata.conversationId sock.userId = false) :
    onSendMessage st sock sdata notifFail =
      (st, [(EmitTarget.direct sock.id, ChatEvent.messageError notAuthorizedError)]) ∧
    handleMarkMessagesRead st sock mdata = (st, []) ∧
    onTypingStart st sock cid =
      (st, [(EmitTarget.roomExcept (RoomKey.conv cid) sock.id,
             ChatEvent.userTyping sock.userId sock.username cid)]) :=
  ⟨onSendMessage_not_participant st sock sdata notifFail h1,
   markRead_not_participant st sock mdata h2, rfl⟩

/-- Witness for C9's amended theorem at a concrete non-participant. -/
theorem c9_witness :
    hasActiveParticipant c9St 1 2 = false ∧
    onTypingStart c9St { id := "s2", userId := 2, username := [] } 1 =
      (c9St, [(EmitTarget.roomExcept (RoomKey.conv 1) "s2", ChatEvent.userTyping 2 [] 1)]) :=
  ⟨by decide,
   (c9_amended_event_gating c9St { id := "s2", userId := 2, username := [] }
      { conversationId := 1, content := [], messageType? := none }
      { conversationId := 1, messageIds := [] } 1 (fun _ => false)
      (by decide) (by decide)).2.2⟩

/-! C6: join_conversations keeps exactly the authorized ids. -/

lemma joinRoom_mem_self (rooms : List (RoomKey × String)) (key : RoomKey) (sid : String) :
    (key, sid) ∈ joinRoom rooms key sid := by
  unfold joinRoom
  split
  case isTrue h =>
    obtain ⟨e, he, hpe⟩ := List.any_eq_true.mp h
    rw [Bool.and_eq_true, decide_eq_true_eq, beq_iff_eq] at hpe
    have : e = (key, sid) := Prod.ext hpe.1 hpe.2
    rwa [this] at he
  case isFalse h => exact List.mem_append_right _ (List.mem_singleton.mpr rfl)

lemma joinRoom_mem_mono {rooms : List (RoomKey × String)} {x : RoomKey × String}
    (key : RoomKey) (sid : String) (h : x ∈ rooms) : x ∈ joinRoom rooms key sid := by
  unfold joinRoom
  split
  · exact h
  · exact List.mem_append_left _ h

lemma foldl_joinRoom_mono {sid : String} {x : RoomKey × String} :
    ∀ (l : List Nat) (r : List (RoomKey × String)), x ∈ r →
      x ∈ List.foldl (fun r i => joinRoom r (RoomKey.conv i) sid) r l := by
  intro l
  induction l with
  | nil => intro r h; exact h
  | cons a l ih =>
    intro r h
    rw [List.foldl_cons]
    exact ih _ (joinRoom_mem_mono (RoomKey.conv a) sid h)

lemma foldl_joinRoom_mem {sid : String} {i : Nat} :
    ∀ (l : List Nat) (r : List (RoomKey × String)), i ∈ l →
      (RoomKey.conv i, sid) ∈ List.foldl (fun r j => joinRoom r (RoomKey.conv j) sid) r l := by
  intro l
  induction l with
  | nil => intro r hi; cases hi
  | cons a l ih =>
    intro r hi
    rw [List.foldl_cons]
    rcases List.mem_cons.mp hi with h | h
    · subst h
      exact foldl_joinRoom_mono l _ (joinRoom_mem_self r (RoomKey.conv i) sid)
    · exact ih _ h

/-- C6: join_conversations joins and returns exactly those requested ids
for which the requesting user holds an active participant row; the other
requested ids are silently dropped, and the only emission is the
conversations_joined confirmation (no error event). -/
theorem c6_join_conversations_filter (st : SysState) (sock : SocketCtx) (ids : List Nat) :
    ∃ joined,
      (onJoinConversations st sock ids).2 =
        [(EmitTarget.direct sock.id, ChatEvent.conversationsJoined joined)] ∧
      (∀ i, i ∈ joined ↔ i ∈ ids ∧ hasActiveParticipant st i sock.userId = true) ∧
      ∀ i ∈ joined, (RoomKey.conv i, sock.id) ∈ (onJoinConversations st sock ids).1.rooms := by
  refine ⟨_, rfl, ?_, ?_⟩
  · intro i
    constructor
    · intro hmem
      obtain ⟨p, hpf, rfl⟩ := List.mem_map.mp hmem
      obtain ⟨hpmem, hpq⟩ := List.mem_filter.mp hpf
      rw [Bool.and_eq_true, Bool.and_eq_true] at hpq
      obtain ⟨⟨hu, hcont⟩, ha⟩ := hpq
      refine ⟨List.elem_iff.mp hcont, ?_⟩
      refine List.any_eq_true.mpr ⟨p, hpmem, ?_⟩
      simp only [participantMatches, Bool.and_eq_true, beq_iff_eq]
      exact ⟨⟨trivial, beq_iff_eq.mp hu⟩, ha⟩
    · rintro ⟨hidmem, hact⟩
      obtain ⟨p, hpmem, hpm⟩ := List.any_eq_true.mp hact
      simp only [participantMatches, Bool.and_eq_true, beq_iff_eq] at hpm
      obtain ⟨⟨hcid, hu⟩, ha⟩ := hpm
      refine List.mem_map.mpr ⟨p, List.mem_filter.mpr ⟨hpmem, ?_⟩, hcid⟩
      rw [Bool.and_eq_true, Bool.and_eq_true]
      refine ⟨⟨beq_iff_eq.mpr hu, ?_⟩, ha⟩
      exact List.elem_iff.mpr (by rw [hcid]; exact hidmem)
  · intro i hi
    obtain ⟨p, hp, rfl⟩ := List.mem_map.mp hi
    exact foldl_joinRoom_mem _ _ (List.mem_map.mpr ⟨p, hp, rfl⟩)

/-! C8: every notification created by a send carries the truncated body. -/

lemma createNotification_notifications {st : SysState} {u : Nat} {d : NotifData}
    {fail : Bool} {res : SysState × List Emit × NotificationRow}
    (h : createNotification st u d fail = Except.ok res) :
    ∀ n ∈ res.1.notifications,
      n ∈ st.notifications ∨ (n.type = d.type ∧ n.content = d.content) := by
  simp only [createNotification, freshTime] at h
  split at h
  · exact absurd h (by simp)
  · split at h
    · rw [Except.ok.injEq] at h
      subst h
      intro n hn
      exact Or.inl hn
    · rw [Except.ok.injEq] at h
      subst h
      intro n hn
      rcases List.mem_append.mp hn with hl | hr
      · exact Or.inl hl
      · right
        rw [List.mem_singleton.mp hr]
        exact ⟨rfl, rfl⟩

lemma notifyLoop_notifications {d : NotifData} {notifFail : Nat → Bool} :
    ∀ (ps : List ParticipantRow) (st : SysState),
      ∀ n ∈ (notifyLoop st ps d notifFail).1.notifications,
        n ∈ st.notifications ∨ (n.type = d.type ∧ n.content = d.content) := by
  intro ps
  induction ps with
  | nil => intro st n hn; exact Or.inl hn
  | cons p rest ih =>
    intro st n hn
    rw [notifyLoop] at hn
    rcases hcr : createNotification st p.userId d (notifFail p.userId) with _ | res
    · rw [hcr] at hn
      exact Or.inl hn
    · rw [hcr] at hn
      simp only at hn
      rcases ih res.1 n hn with h1 | h2
      · exact createNotification_notifications hcr n h1
      · exact Or.inr h2

lemma onSendMessage_fst (st : SysState) (sock : SocketCtx) (data : SendData)
    (notifFail : Nat → Bool) :
    (onSendMessage st sock data notifFail).1 = (handleSendMessage st sock data notifFail).1 := by
  simp only [onSendMessage]
  split <;> rfl

lemma handleSendMessage_notifications (st : SysState) (sock : SocketCtx) (data : SendData)
    (notifFail : Nat → Bool) :
    ∀ n ∈ (handleSendMessage st sock data notifFail).1.notifications,
      n ∈ st.notifications ∨
        (n.type = NotificationType.NEW_MESSAGE ∧ n.content = truncate100 data.content) := by
  simp only [handleSendMessage, freshTime]
  split
  · intro n hn; exact Or.inl hn
  · split
    · intro n hn
      exact notifyLoop_notifications _ _ n hn
    · intro n hn; exact Or.inl hn

/-- C8: any notification present after a send either predates the send or
is a NEW_MESSAGE notification whose content is the send body truncated
to 100 characters; truncation returns the body itself when it has at
most 100 characters and the first 100 characters followed by the
ellipsis marker when it is longer (so a 150-character body yields the
first 100 characters plus the ellipsis). -/
theorem c8_notification_truncation (st : SysState) (sock : SocketCtx) (data : SendData)
    (notifFail : Nat → Bool) :
    (∀ n ∈ (onSendMessage st sock data notifFail).1.notifications,
        n ∈ st.notifications ∨
          (n.type = NotificationType.NEW_MESSAGE ∧ n.content = truncate100 data.content)) ∧
    (data.content.length ≤ 100 → truncate100 data.content = data.content) ∧
    (∀ s : List Char, 100 < s.length → truncate100 s = s.take 100 ++ ellipsis) := by
  refine ⟨?_, ?_, ?_⟩
  · rw [onSendMessage_fst]
    exact handleSendMessage_notifications st sock data notifFail
  · intro h
    unfold truncate100
    rw [if_neg (by omega), List.take_of_length_le h, List.append_nil]
  · intro s h
    unfold truncate100
    rw [if_pos h]

/-- Witness for C8: a 150-character body produces the first 100
characters plus the ellipsis, and a short body is passed unchanged. -/
theorem c8_witness :
    truncate100 (List.replicate 150 'a') = List.replicate 100 'a' ++ ellipsis ∧
    truncate100 ['h', 'i'] = ['h', 'i'] := by
  constructor
  · have h := (c8_notification_truncation c1St { id := "s1", userId := 1, username := [] }
      { conversationId := 1, content := [], messageType? := none } (fun _ => false)).2.2
        (List.replicate 150 'a') (by simp)
    rw [h, List.take_replicate]
    norm_num
  · exact (c8_notification_truncation c1St { id := "s1", userId := 1, username := [] }
      { conversationId := 1, content := ['h', 'i'], messageType? := none }
      (fun _ => false)).2.1 (by simp)

/-! C7: session-directory invariant and presence. -/

lemma mapSet_keys_of_mem {m : List (Nat × List String)} {k : Nat} {v : List String} :
    (m.map (fun e => if e.1 == k then (k, v) else e)).map Prod.fst = m.map Prod.fst := by
  rw [List.map_map]
  apply List.map_congr_left
  intro e _
  by_cases he : e.1 = k
  · simp [he]
  · simp [he]

lemma mapSet_values {m : List (Nat × List String)} {k : Nat} {v : List String}
    (hv : v ≠ []) (h : ∀ e ∈ m, e.2 ≠ []) : ∀ e ∈ mapSet m k v, e.2 ≠ [] := by
  intro e he
  unfold mapSet at he
  split at he
  · obtain ⟨e0, he0, rfl⟩ := List.mem_map.mp he
    by_cases h0 : e0.1 = k
    · simp only [h0, beq_self_eq_true, if_true]
      exact hv
    · simp only [beq_iff_eq, h0, if_false]
      exact h e0 he0
  · rcases List.mem_append.mp he with hl | hr
    · exact h e hl
    · rw [List.mem_singleton.mp hr]
      exact hv

lemma mapSet_nodup {m : List (Nat × List String)} {k : Nat} {v : List String}
    (h : (m.map Prod.fst).Nodup) : ((mapSet m k v).map Prod.fst).Nodup := by
  unfold mapSet
  split
  case isTrue hk => rw [mapSet_keys_of_mem]; exact h
  case isFalse hk =>
    rw [List.map_append]
    rw [List.nodup_append]
    refine ⟨h, List.nodup_singleton k, ?_⟩
    intro x hx hx2
    rw [List.mem_singleton.mp hx2] at hx
    obtain ⟨e, he, hek⟩ := List.mem_map.mp hx
    have : m.any (fun e => e.1 == k) = true :=
      List.any_eq_true.mpr ⟨e, he, beq_iff_eq.mpr hek⟩
    rw [this] at hk
    exact hk rfl

lemma SessInv_mapSet {m : List (Nat × List String)} {k : Nat} {v : List String}
    (h : SessInv m) (hv : v ≠ []) : SessInv (mapSet m k v) :=
  ⟨mapSet_values hv h.1, mapSet_nodup h.2⟩

lemma SessInv_mapDelete {m : List (Nat × List String)} {k : Nat}
    (h : SessInv m) : SessInv (mapDelete m k) := by
  constructor
  · intro e he
    exact h.1 e (List.mem_of_mem_filter he)
  · exact h.2.sublist ((List.filter_sublist m).map Prod.fst)

lemma isUserOnline_mapSet (m : List (Nat × List String)) (k : Nat) (v : List String) :
    isUserOnline (mapSet m k v) k = true := by
  unfold isUserOnline mapSet
  split
  case isTrue hk =>
    obtain ⟨e, he, hek⟩ := List.any_eq_true.mp hk
    refine List.any_eq_true.mpr ⟨(k, v), ?_, beq_self_eq_true k⟩
    refine List.mem_map.mpr ⟨e, he, ?_⟩
    rw [hek]
    rfl
  case isFalse hk =>
    refine List.any_eq_true.mpr ⟨(k, v), List.mem_append_right _ (List.mem_singleton.mpr rfl),
      beq_self_eq_true k⟩

lemma isUserOnline_mapDelete (m : List (Nat × List String)) (k : Nat) :
    isUserOnline (mapDelete m k) k = false := by
  rw [Bool.eq_false_iff]
  intro hany
  obtain ⟨e, he, hek⟩ := List.any_eq_true.mp hany
  have hne := List.of_mem_filter he
  rw [bne_iff_ne] at hne
  exact hne (beq_iff_eq.mp hek)

lemma isUserOnline_iff_mapGet {m : List (Nat × List String)} {u : Nat}
    (h : SessInv m) : isUserOnline m u = true ↔ mapGet m u ≠ [] := by
  constructor
  · intro ho
    obtain ⟨e, hfind⟩ := exists_find?_eq_some_of_any ho
    have hmem := List.mem_of_find?_eq_some hfind
    unfold mapGet
    rw [hfind]
    exact h.1 e hmem
  · intro hg
    unfold mapGet at hg
    rcases hfind : m.find? (fun e => e.1 == u) with _ | e
    · rw [hfind] at hg
      exact absurd rfl hg
    · have := List.find?_some hfind
      exact List.any_eq_true.mpr ⟨e, List.mem_of_find?_eq_some hfind, this⟩

/-- C7: the session directory retains no empty connection lists: the
invariant is preserved by addUserSocket and removeUserSocket (removing a
user's last connection deletes the entry entirely), a user is online
exactly when their connection list is non-empty, a user is online right
after registering a connection, and after an unregister the user is
online exactly when some other connection of theirs remains. -/
theorem c7_presence_invariant (m : List (Nat × List String)) (u : Nat) (s : String)
    (h : SessInv m) :
    SessInv (addUserSocket m u s) ∧
    SessInv (removeUserSocket m u s) ∧
    (isUserOnline m u = true ↔ mapGet m u ≠ []) ∧
    isUserOnline (addUserSocket m u s) u = true ∧
    (isUserOnline (removeUserSocket m u s) u = true ↔
      (mapGet m u).filter (fun sid => sid != s) ≠ []) := by
  refine ⟨?_, ?_, isUserOnline_iff_mapGet h, isUserOnline_mapSet m u _, ?_⟩
  · exact SessInv_mapSet h (by simp)
  · simp only [removeUserSocket]
    split
    · exact SessInv_mapDelete h
    case isFalse hne => exact SessInv_mapSet h (by simpa using hne)
  · simp only [removeUserSocket]
    split
    case isTrue he =>
      rw [isUserOnline_mapDelete]
      rw [List.isEmpty_iff] at he
      simp [he]
    case isFalse hne =>
      rw [isUserOnline_mapSet]
      rw [List.isEmpty_iff] at hne
      simp [hne]

/-- Witness for C7 at a concrete directory: user 1 holds sockets a and b;
removing b keeps the user online. -/
theorem c7_witness :
    SessInv [(1, ["a", "b"])] ∧
    (isUserOnline (removeUserSocket [(1, ["a", "b"])] 1 "b") 1 = true ↔
      (mapGet [(1, ["a", "b"])] 1).filter (fun sid => sid != "b") ≠ []) :=
  ⟨by constructor
      · intro e he
        rw [List.mem_singleton.mp he]
        simp
      · simp,
   (c7_presence_invariant [(1, ["a", "b"])] 1 "b"
      ⟨by intro e he
          rw [List.mem_singleton.mp he]
          simp,
       by simp⟩).2.2.2.2⟩

/-- Witness for C6: user 1 requests conversations 1 and 2 but is an
active participant of conversation 1 only; the room for conversation 1
is joined. -/
theorem c6_witness :
    (1 : Nat) ∈ ([1, 2] : List Nat) ∧ hasActiveParticipant c1St 1 1 = true ∧
    (RoomKey.conv 1, "s1") ∈
      (onJoinConversations c1St { id := "s1", userId := 1, username := [] } [1, 2]).1.rooms := by
  obtain ⟨joined, hemit, hiff, hroom⟩ :=
    c6_join_conversations_filter c1St { id := "s1", userId := 1, username := [] } [1, 2]
  have h1 : (1 : Nat) ∈ joined := (hiff 1).mpr ⟨by decide, by decide⟩
  exact ⟨by decide, by decide, hroom 1 h1⟩

/-! C5: markRead idempotence over receipts. -/

lemma receiptCount_pos_iff_any (l : List ReceiptRow) (mid uid : Nat) :
    l.any (receiptMatches mid uid) = true ↔ 0 < receiptCount l mid uid := by
  rw [List.any_eq_true, receiptCount, List.countP_pos_iff]

lemma receiptCount_append_single (l : List ReceiptRow) (mid uid a b : Nat) :
    receiptCount (l ++ [{ messageId := a, userId := b }]) mid uid =
      receiptCount l mid uid + (if a = mid ∧ b = uid then 1 else 0) := by
  rw [receiptCount, List.countP_append]
  congr 1
  by_cases h : a = mid ∧ b = uid
  · rw [if_pos h]
    simp [List.countP_cons, receiptMatches, h.1, h.2]
  · rw [if_neg h]
    rw [Decidable.not_and_iff_or_not] at h
    rcases h with h | h <;> simp [List.countP_cons, receiptMatches, h]

lemma createManyReceipts_count_not_mem {uid mid : Nat} :
    ∀ (ids : List Nat) (rs : List ReceiptRow), mid ∉ ids →
      receiptCount (createManyReceipts rs ids uid) mid uid = receiptCount rs mid uid := by
  intro ids
  induction ids with
  | nil => intro rs _; rfl
  | cons a rest ih =>
    intro rs h
    have hne : a ≠ mid := fun hc => h (hc ▸ List.mem_cons_self a rest)
    have hrest : mid ∉ rest := fun hc => h (List.mem_cons_of_mem a hc)
    rw [createManyReceipts]
    split
    · exact ih rs hrest
    · rw [ih _ hrest, receiptCount_append_single]
      simp [hne]

lemma createManyReceipts_count_mem {uid mid : Nat} :
    ∀ (ids : List Nat) (rs : List ReceiptRow),
      receiptCount rs mid uid ≤ 1 → mid ∈ ids →
      receiptCount (createManyReceipts rs ids uid) mid uid = 1 := by
  intro ids
  induction ids with
  | nil => intro rs _ h; cases h
  | cons a rest ih =>
    intro rs hle hmem
    rw [createManyReceipts]
    by_cases hrest : mid ∈ rest
    · refine ih _ ?_ hrest
      split
      · exact hle
      next hany =>
        rw [receiptCount_append_single]
        by_cases hab : a = mid ∧ uid = uid
        · have h0 : receiptCount rs mid uid = 0 := by
            by_contra hp
            have : 0 < receiptCount rs mid uid := Nat.pos_of_ne_zero hp
            rw [hab.1] at hany
            exact hany ((receiptCount_pos_iff_any rs mid uid).mpr this)
          rw [h0, if_pos hab]
        · rw [if_neg hab]
          omega
    · have ha : a = mid := by
        rcases List.mem_cons.mp hmem with h | h
        · exact h.symm
        · exact absurd h hrest
      subst ha
      rw [createManyReceipts_count_not_mem rest _ hrest]
      split
      next hany =>
        have hpos := (receiptCount_pos_iff_any rs a uid).mp hany
        omega
      next hany =>
        have h0 : receiptCount rs a uid = 0 := by
          by_contra hp
          exact hany ((receiptCount_pos_iff_any rs a uid).mpr (Nat.pos_of_ne_zero hp))
        rw [receiptCount_append_single, h0, if_pos ⟨rfl, rfl⟩]

lemma markRead_receipts (st : SysState) (sock : SocketCtx) (data : MarkReadData)
    (h : hasActiveParticipant st data.conversationId sock.userId = true) :
    (handleMarkMessagesRead st sock data).1.receipts =
      createManyReceipts st.receipts data.messageIds sock.userId := by
  obtain ⟨p0, hf⟩ := exists_find?_eq_some_of_any h
  simp only [handleMarkMessagesRead, freshTime, hf]

lemma markRead_preserves_active (st : SysState) (sock : SocketCtx) (data : MarkReadData)
    (cid uid : Nat) :
    hasActiveParticipant (handleMarkMessagesRead st sock data).1 cid uid =
      hasActiveParticipant st cid uid := by
  simp only [handleMarkMessagesRead, freshTime]
  split
  · rfl
  case h_2 part hf =>
    simp only [hasActiveParticipant, List.any_map]
    congr 1
    funext q
    by_cases hq : q.id = part.id <;> simp [Function.comp, participantMatches, hq]

/-- C5: markRead is idempotent over receipts: for a caller without an
active participant row the handler changes nothing and emits nothing,
and for a caller with one, running the handler twice with the same
arguments leaves exactly one receipt row per listed (messageId, userId)
pair, given that the store held at most one beforehand. -/
theorem c5_markRead_idempotent (st : SysState) (sock : SocketCtx) (data : MarkReadData)
    (huniq : ∀ mid ∈ data.messageIds, receiptCount st.receipts mid sock.userId ≤ 1) :
    (hasActiveParticipant st data.conversationId sock.userId = false →
      handleMarkMessagesRead st sock data = (st, [])) ∧
    (hasActiveParticipant st data.conversationId sock.userId = true →
      ∀ mid ∈ data.messageIds,
        receiptCount
          (handleMarkMessagesRead (handleMarkMessagesRead st sock data).1 sock data).1.receipts
          mid sock.userId = 1) := by
  constructor
  · exact markRead_not_participant st sock data
  · intro hact mid hmid
    have hact1 : hasActiveParticipant (handleMarkMessagesRead st sock data).1
        data.conversationId sock.userId = true := by
      rw [markRead_preserves_active]
      exact hact
    rw [markRead_receipts _ sock data hact1, markRead_receipts st sock data hact]
    have hcount1 : receiptCount (createManyReceipts st.receipts data.messageIds sock.userId)
        mid sock.userId = 1 :=
      createManyReceipts_count_mem data.messageIds st.receipts (huniq mid hmid) hmid
    exact createManyReceipts_count_mem data.messageIds _ (by omega) hmid

/-- Witness for C5 at a concrete state: user 1 marks messages 5 and 6
read twice in conversation 1. -/
theorem c5_witness :
    (∀ mid ∈ [5, 6], receiptCount c1St.receipts mid 1 ≤ 1) ∧
    (hasActiveParticipant c1St 1 1 = true) ∧
    receiptCount
      (handleMarkMessagesRead
        (handleMarkMessagesRead c1St { id := "s1", userId := 1, username := [] }
          { conversationId := 1, messageIds := [5, 6] }).1
        { id := "s1", userId := 1, username := [] }
        { conversationId := 1, messageIds := [5, 6] }).1.receipts 5 1 = 1 := by
  refine ⟨by decide, by decide, ?_⟩
  exact (c5_markRead_idempotent c1St { id := "s1", userId := 1, username := [] }
    { conversationId := 1, messageIds := [5, 6] } (by decide)).2 (by decide) 5 (by decide)

/-! C2: notification deduplication within the five-minute window. -/

/-- The row inserted by createNotification when no duplicate is found. -/
def mkNotifRow (st : SysState) (userId : Nat) (d : NotifData) : NotificationRow :=
  { id := st.nextNotificationId, userId := userId, type := d.type, title := d.title,
    content := d.content, isRead := false, payload := d.payload, createdAt := st.now + 1 }

lemma createNotification_dup (st : SysState) (u : Nat) (d : NotifData) (n : NotificationRow)
    (h : st.notifications.find? (dupPred u d st.now) = some n) :
    createNotification st u d false =
      Except.ok ({ st with now := st.now + 1 }, [], n) := by
  simp only [createNotification, freshTime, h, Bool.false_eq_true, if_false]

/-- The state after createNotification inserts a fresh row. -/
def insertResultState (st : SysState) (userId : Nat) (d : NotifData) : SysState :=
  { st with now := st.now + 1 + 1,
            notifications := st.notifications ++ [mkNotifRow st userId d],
            nextNotificationId := st.nextNotificationId + 1 }

lemma createNotification_insert (st : SysState) (u : Nat) (d : NotifData)
    (h : st.notifications.find? (dupPred u d st.now) = none) :
    createNotification st u d false =
      Except.ok
        (insertResultState st u d,
         [(EmitTarget.room (RoomKey.user u), ChatEvent.newNotification (mkNotifRow st u d))],
         mkNotifRow st u d) := by
  simp only [createNotification, freshTime, h, Bool.false_eq_true, if_false, mkNotifRow,
    insertResultState]

lemma notifMatches_mkNotifRow (st : SysState) (u : Nat) (d : NotifData) :
    notifMatches u d (mkNotifRow st u d) = true := by
  simp [notifMatches, mkNotifRow]

lemma dupPred_none_mono {l : List NotificationRow} {u : Nat} {d : NotifData} {t t' : Int}
    (h : l.find? (dupPred u d t) = none) (hle : t ≤ t') :
    l.find? (dupPred u d t') = none := by
  rw [List.find?_eq_none] at h ⊢
  intro n hn hp
  refine h n hn ?_
  rw [dupPred, Bool.and_eq_true, decide_eq_true_eq] at hp ⊢
  obtain ⟨hm, hct⟩ := hp
  exact ⟨hm, by omega⟩

lemma notifCount_append_match {l : List NotificationRow} {u : Nat} {d : NotifData}
    {n : NotificationRow} (h : notifMatches u d n = true) :
    notifCount (l ++ [n]) u d = notifCount l u d + 1 := by
  rw [notifCount, List.countP_append, notifCount]
  simp [List.countP_cons, h]

/-- C2: createNotification deduplicates within the five-minute window: a
call finding a matching notification created within the window returns
it with no insert and no emission; a call finding none inserts exactly
one row and emits one new_notification to the recipient's personal
group, an identical call issued immediately afterwards returns that same
row with no insert and no emission, and an identical call issued after
the five-minute window has passed inserts a second row. -/
theorem c2_notification_dedup (st : SysState) (u : Nat) (d : NotifData) (dl : Int)
    (hdl : fiveMinutesMs ≤ dl) :
    (∀ n, st.notifications.find? (dupPred u d st.now) = some n →
      createNotification st u d false = Except.ok ({ st with now := st.now + 1 }, [], n)) ∧
    (st.notifications.find? (dupPred u d st.now) = none →
      ∃ st1 row,
        createNotification st u d false =
          Except.ok (st1,
            [(EmitTarget.room (RoomKey.user u), ChatEvent.newNotification row)], row) ∧
        st1.notifications = st.notifications ++ [row] ∧
        notifCount st1.notifications u d = notifCount st.notifications u d + 1 ∧
        (∃ st2, createNotification st1 u d false = Except.ok (st2, [], row) ∧
          st2.notifications = st1.notifications) ∧
        (∃ st3 row2,
          createNotification (advanceClock st1 dl) u d false =
            Except.ok (st3,
              [(EmitTarget.room (RoomKey.user u), ChatEvent.newNotification row2)], row2) ∧
          notifCount st3.notifications u d = notifCount st1.notifications u d + 1)) := by
  constructor
  · intro n h
    exact createNotification_dup st u d n h
  · intro h1
    refine ⟨_, mkNotifRow st u d, createNotification_insert st u d h1, rfl, ?_, ?_, ?_⟩
    · exact notifCount_append_match (notifMatches_mkNotifRow st u d)
    · have hpre : st.notifications.find? (dupPred u d (st.now + 1 + 1)) = none :=
        dupPred_none_mono h1 (by omega)
      have hmk2 : (mkNotifRow st u d).createdAt = st.now + 1 := rfl
      have hrow : dupPred u d (st.now + 1 + 1) (mkNotifRow st u d) = true := by
        rw [dupPred, Bool.and_eq_true, decide_eq_true_eq]
        refine ⟨notifMatches_mkNotifRow st u d, ?_⟩
        rw [hmk2, fiveMinutesMs]
        omega
      have hfind : (st.notifications ++ [mkNotifRow st u d]).find?
          (dupPred u d (st.now + 1 + 1)) = some (mkNotifRow st u d) := by
        rw [find?_append_of_none hpre, List.find?_cons, hrow]
      exact ⟨_, createNotification_dup (insertResultState st u d) u d (mkNotifRow st u d) hfind,
        rfl⟩
    · have hpre : st.notifications.find? (dupPred u d (st.now + 1 + 1 + dl)) = none := by
        refine dupPred_none_mono h1 ?_
        rw [fiveMinutesMs] at hdl
        omega
      have hmk : (mkNotifRow st u d).createdAt = st.now + 1 := rfl
      have hrow : dupPred u d (st.now + 1 + 1 + dl) (mkNotifRow st u d) = false := by
        rw [dupPred, Bool.and_eq_false_iff]
        right
        rw [decide_eq_false_iff_not, hmk, fiveMinutesMs]
        rw [fiveMinutesMs] at hdl
        omega
      have hfind : (st.notifications ++ [mkNotifRow st u d]).find?
          (dupPred u d (st.now + 1 + 1 + dl)) = none := by
        rw [find?_append_of_none hpre, List.find?_cons, hrow, List.find?_nil]
      have hins := createNotification_insert
        (advanceClock (insertResultState st u d) dl) u d hfind
      exact ⟨_, _, hins, notifCount_append_match (notifMatches_mkNotifRow _ u d)⟩

/-- Concrete notification data for the C2 witness. -/
def c2D : NotifData :=
  { type := NotificationType.SYSTEM, title := [], content := [], payload := none }

/-- Witness for C2: at a state with no stored notifications the dedup
window hypothesis holds and the first call succeeds. -/
theorem c2_witness :
    fiveMinutesMs ≤ fiveMinutesMs ∧
    c1St.notifications.find? (dupPred 1 c2D c1St.now) = none ∧
    createNotification c1St 1 c2D false ≠ Except.error () := by
  obtain ⟨st1, row, hok, -, -, -, -⟩ :=
    (c2_notification_dedup c1St 1 c2D fiveMinutesMs le_rfl).2 rfl
  refine ⟨le_rfl, rfl, ?_⟩
  rw [hok]
  intro hc
  exact Except.noConfusion hc

/-! The authorized send pipeline, shared by C3, C4 and C10. -/

/-- The message row persisted by an authorized send. -/
def sendMsgRow (st : SysState) (sock : SocketCtx) (data : SendData) : MessageRow :=
  { id := st.nextMessageId, conversationId := data.conversationId,
    senderId := sock.userId, content := data.content,
    messageType := data.messageType?.getD MessageType.TEXT, createdAt := st.now }

/-- The notification data of the fanout following an authorized send. -/
def sendNotifData (st : SysState) (sock : SocketCtx) (data : SendData) : NotifData :=
  { type := NotificationType.NEW_MESSAGE, title := newMessageTitle sock.username,
    content := truncate100 data.content,
    payload := some { conversationId := data.conversationId,
                      messageId := st.nextMessageId, senderId := sock.userId } }

/-- The state right after the message is persisted and the conversation
timestamp refreshed, before the notification fanout. -/
def sendMidState (st : SysState) (sock : SocketCtx) (data : SendData) : SysState :=
  { st with now := st.now + 1 + 1,
            nextMessageId := st.nextMessageId + 1,
            messages := st.messages ++ [sendMsgRow st sock data],
            conversations := st.conversations.map (fun c =>
              if c.id == data.conversationId then { c with updatedAt := st.now + 1 } else c) }

/-- The other active participants of the conversation, notified after a send. -/
def sendOthers (st : SysState) (sock : SocketCtx) (data : SendData) : List ParticipantRow :=
  st.participants.filter (fun p =>
    p.conversationId == data.conversationId && p.userId != sock.userId && p.isActive)

/-- The new_message broadcast emitted by an authorized send. -/
def sendBroadcast (st : SysState) (sock : SocketCtx) (data : SendData) : Emit :=
  (EmitTarget.room (RoomKey.conv data.conversationId),
   ChatEvent.newMessage st.nextMessageId data.conversationId sock.userId
     data.content (data.messageType?.getD MessageType.TEXT) st.now)

lemma handleSendMessage_authorized (st : SysState) (sock : SocketCtx) (data : SendData)
    (notifFail : Nat → Bool) (p0 : ParticipantRow)
    (hf : st.participants.find? (participantMatches data.conversationId sock.userId) = some p0)
    (hc : st.conversations.any (fun c => c.id == data.conversationId) = true) :
    handleSendMessage st sock data notifFail =
      ((notifyLoop (sendMidState st sock data) (sendOthers st sock data)
          (sendNotifData st sock data) notifFail).1,
       sendBroadcast st sock data ::
         (notifyLoop (sendMidState st sock data) (sendOthers st sock data)
            (sendNotifData st sock data) notifFail).2.1,
       (notifyLoop (sendMidState st sock data) (sendOthers st sock data)
          (sendNotifData st sock data) notifFail).2.2) := by
  simp only [handleSendMessage, freshTime, hf, hc, if_true, sendMidState, sendOthers,
    sendNotifData, sendBroadcast, sendMsgRow]

lemma createNotification_preserves {st : SysState} {u : Nat} {d : NotifData} {fail : Bool}
    {res : SysState × List Emit × NotificationRow}
    (h : createNotification st u d fail = Except.ok res) :
    res.1.messages = st.messages ∧ res.1.conversations = st.conversations ∧
    res.1.participants = st.participants ∧ res.1.rooms = st.rooms ∧
    res.1.receipts = st.receipts := by
  simp only [createNotification, freshTime] at h
  split at h
  · exact absurd h (by simp)
  · split at h <;>
      (rw [Except.ok.injEq] at h; subst h; exact ⟨rfl, rfl, rfl, rfl, rfl⟩)

lemma createNotification_emits {st : SysState} {u : Nat} {d : NotifData} {fail : Bool}
    {res : SysState × List Emit × NotificationRow}
    (h : createNotification st u d fail = Except.ok res) :
    ∀ e ∈ res.2.1, ∃ n, e = (EmitTarget.room (RoomKey.user u), ChatEvent.newNotification n) := by
  simp only [createNotification, freshTime] at h
  split at h
  · exact absurd h (by simp)
  · split at h <;> (rw [Except.ok.injEq] at h; subst h; intro e he)
    · cases he
    · rw [List.mem_singleton.mp he]
      exact ⟨_, rfl⟩

lemma notifyLoop_preserves {d : NotifData} {notifFail : Nat → Bool} :
    ∀ (ps : List ParticipantRow) (st : SysState),
      (notifyLoop st ps d notifFail).1.messages = st.messages ∧
      (notifyLoop st ps d notifFail).1.conversations = st.conversations ∧
      (notifyLoop st ps d notifFail).1.participants = st.participants ∧
      (notifyLoop st ps d notifFail).1.rooms = st.rooms ∧
      (notifyLoop st ps d notifFail).1.receipts = st.receipts := by
  intro ps
  induction ps with
  | nil => intro st; exact ⟨rfl, rfl, rfl, rfl, rfl⟩
  | cons p rest ih =>
    intro st
    rcases hcr : createNotification st p.userId d (notifFail p.userId) with u | res
    · simp [notifyLoop, hcr]
    · obtain ⟨st1, es, row⟩ := res
      simp only [notifyLoop, hcr]
      obtain ⟨h1, h2, h3, h4, h5⟩ := createNotification_preserves hcr
      obtain ⟨g1, g2, g3, g4, g5⟩ := ih st1
      exact ⟨g1.trans h1, g2.trans h2, g3.trans h3, g4.trans h4, g5.trans h5⟩

lemma notifyLoop_emit_shapes {d : NotifData} {notifFail : Nat → Bool} :
    ∀ (ps : List ParticipantRow) (st : SysState),
      ∀ e ∈ (notifyLoop st ps d notifFail).2.1,
        ∃ u n, e = (EmitTarget.room (RoomKey.user u), ChatEvent.newNotification n) := by
  intro ps
  induction ps with
  | nil => intro st e he; cases he
  | cons p rest ih =>
    intro st e he
    rcases hcr : createNotification st p.userId d (notifFail p.userId) with u | res
    · simp only [notifyLoop, hcr] at he
      cases he
    · obtain ⟨st1, es, row⟩ := res
      simp only [notifyLoop, hcr] at he
      rcases List.mem_append.mp he with hl | hr
      · obtain ⟨n, hn⟩ := createNotification_emits hcr e hl
        exact ⟨p.userId, n, hn⟩
      · exact ih st1 e hr

lemma notifyLoop_fails {d : NotifData} {notifFail : Nat → Bool} :
    ∀ (ps : List ParticipantRow) (st : SysState),
      (∃ p ∈ ps, notifFail p.userId = true) →
      (notifyLoop st ps d notifFail).2.2 = false := by
  intro ps
  induction ps with
  | nil => intro st h; obtain ⟨p, hp, -⟩ := h; cases hp
  | cons a rest ih =>
    intro st h
    cases hfa : notifFail a.userId with
    | true =>
      have hcr : createNotification st a.userId d (notifFail a.userId) = Except.error () := by
        rw [hfa]
        rfl
      simp only [notifyLoop, hcr]
    | false =>
      obtain ⟨p, hp, hpf⟩ := h
      rcases List.mem_cons.mp hp with rfl | hrest
      · rw [hfa] at hpf
        exact absurd hpf (by simp)
      · rcases hcr : createNotification st a.userId d (notifFail a.userId) with u | res
        · simp only [notifyLoop, hcr]
        · obtain ⟨st1, es, row⟩ := res
          simp only [notifyLoop, hcr]
          exact ih st1 ⟨p, hrest, hpf⟩

lemma send_authorized_messages (st : SysState) (sock : SocketCtx) (data : SendData)
    (notifFail : Nat → Bool)
    (hp : hasActiveParticipant st data.conversationId sock.userId = true)
    (hc : st.conversations.any (fun c => c.id == data.conversationId) = true) :
    (onSendMessage st sock data notifFail).1.messages
      = st.messages ++ [sendMsgRow st sock data] := by
  obtain ⟨p0, hf⟩ := exists_find?_eq_some_of_any hp
  rw [onSendMessage_fst, handleSendMessage_authorized st sock data notifFail p0 hf hc]
  obtain ⟨hm, -, -, -, -⟩ :=
    @notifyLoop_preserves (sendNotifData st sock data) notifFail
      (sendOthers st sock data) (sendMidState st sock data)
  rw [hm]
  rfl

lemma send_authorized_rooms (st : SysState) (sock : SocketCtx) (data : SendData)
    (notifFail : Nat → Bool)
    (hp : hasActiveParticipant st data.conversationId sock.userId = true)
    (hc : st.conversations.any (fun c => c.id == data.conversationId) = true) :
    (onSendMessage st sock data notifFail).1.rooms = st.rooms := by
  obtain ⟨p0, hf⟩ := exists_find?_eq_some_of_any hp
  rw [onSendMessage_fst, handleSendMessage_authorized st sock data notifFail p0 hf hc]
  obtain ⟨-, -, -, hr, -⟩ :=
    @notifyLoop_preserves (sendNotifData st sock data) notifFail
      (sendOthers st sock data) (sendMidState st sock data)
  rw [hr]
  rfl

lemma onSendMessage_emits_cases (st : SysState) (sock : SocketCtx) (data : SendData)
    (notifFail : Nat → Bool) :
    (onSendMessage st sock data notifFail).2 = (handleSendMessage st sock data notifFail).2.1 ∨
    (onSendMessage st sock data notifFail).2 =
      (handleSendMessage st sock data notifFail).2.1 ++
        [(EmitTarget.direct sock.id, ChatEvent.messageError sendFailedError)] := by
  simp only [onSendMessage]
  split
  · exact Or.inl rfl
  · exact Or.inr rfl

/-! C4: the conversation timestamp after a send. -/

/-- Concrete state for C4: one conversation, one active participant, and
a clock at 10 so that the two timestamp observations of a send differ. -/
def c4St : SysState :=
  { now := 10, nextMessageId := 1, nextNotificationId := 1,
    conversations := [{ id := 1, updatedAt := 0 }],
    participants := [{ id := 1, conversationId := 1, userId := 1,
                       isActive := true, lastReadAt := none }],
    messages := [], receipts := [], notifications := [], rooms := [] }

/-- The sending connection used in the concrete send runs. -/
def c4Sock : SocketCtx := { id := "s1", userId := 1, username := [] }

/-- The send_message payload used in the concrete send runs. -/
def c4Data : SendData := { conversationId := 1, content := ['h', 'i'], messageType? := none }

/-- Counterexample to C4 as stated: after a successful send at clock 10
the persisted message has creation timestamp 10, but the conversation's
update timestamp is 11 — the code refreshes it with a second, later
clock reading instead of copying the message's creation time. -/
theorem c4_counterexample :
    (onSendMessage c4St c4Sock c4Data (fun _ => false)).1.messages.map
        MessageRow.createdAt = [10] ∧
    (onSendMessage c4St c4Sock c4Data (fun _ => false)).1.conversations.map
        ConversationRow.updatedAt = [11] ∧
    (11 : Int) ≠ 10 := by
  refine ⟨rfl, rfl, by decide⟩

/-- C4 amended: after a successful authorized send, a message row with
the given conversationId, senderId, content and messageType is appended,
and the parent conversation's update timestamp is refreshed to the
(strictly later) time of the update step, so it is greater than — not
equal to — the message's creation timestamp. -/
theorem c4_amended_send_persists (st : SysState) (sock : SocketCtx) (data : SendData)
    (notifFail : Nat → Bool)
    (hp : hasActiveParticipant st data.conversationId sock.userId = true)
    (hc : st.conversations.any (fun c => c.id == data.conversationId) = true) :
    (onSendMessage st sock data notifFail).1.messages
        = st.messages ++ [sendMsgRow st sock data] ∧
    (sendMsgRow st sock data).conversationId = data.conversationId ∧
    (sendMsgRow st sock data).senderId = sock.userId ∧
    (sendMsgRow st sock data).content = data.content ∧
    (sendMsgRow st sock data).messageType = data.messageType?.getD MessageType.TEXT ∧
    ∀ c ∈ (onSendMessage st sock data notifFail).1.conversations,
      c.id = data.conversationId → (sendMsgRow st sock data).createdAt < c.updatedAt := by
  obtain ⟨p0, hf⟩ := exists_find?_eq_some_of_any hp
  refine ⟨send_authorized_messages st sock data notifFail hp hc, rfl, rfl, rfl, rfl, ?_⟩
  intro c hcmem hcid
  rw [onSendMessage_fst, handleSendMessage_authorized st sock data notifFail p0 hf hc] at hcmem
  obtain ⟨-, hcv, -, -, -⟩ :=
    @notifyLoop_preserves (sendNotifData st sock data) notifFail
      (sendOthers st sock data) (sendMidState st sock data)
  rw [hcv] at hcmem
  simp only [sendMidState] at hcmem
  obtain ⟨c0, hc0, hc0eq⟩ := List.mem_map.mp hcmem
  have hcreated : (sendMsgRow st sock data).createdAt = st.now := rfl
  by_cases h0 : c0.id = data.conversationId
  · rw [if_pos (beq_iff_eq.mpr h0)] at hc0eq
    rw [← hc0eq]
    rw [hcreated]
    show st.now < st.now + 1
    omega
  · rw [if_neg (by simpa using h0)] at hc0eq
    rw [← hc0eq] at hcid
    exact absurd hcid h0

/-- Witness for C4's amended theorem at the concrete send. -/
theorem c4_witness :
    hasActiveParticipant c4St 1 1 = true ∧
    (onSendMessage c4St c4Sock c4Data (fun _ => false)).1.messages =
      c4St.messages ++ [sendMsgRow c4St c4Sock c4Data] := by
  refine ⟨by decide, ?_⟩
  exact (c4_amended_send_persists c4St c4Sock c4Data (fun _ => false)
    (by decide) (by decide)).1

/-! C3: a notification-creation failure after a send. -/

/-- Concrete state for C3: users 1 and 2 are active participants of
conversation 1, so a send by user 1 triggers a notification for user 2. -/
def c3St : SysState :=
  { now := 0, nextMessageId := 1, nextNotificationId := 1,
    conversations := [{ id := 1, updatedAt := 0 }],
    participants := [
      { id := 1, conversationId := 1, userId := 1, isActive := true, lastReadAt := none },
      { id := 2, conversationId := 1, userId := 2, isActive := true, lastReadAt := none }],
    messages := [], receipts := [], notifications := [], rooms := [] }

/-- Counterexample to C3 as stated: when creating the NEW_MESSAGE
notification for user 2 throws, the message row remains persisted, but a
message_error event IS emitted to the sending connection — the error is
not swallowed inside the notification step; it escapes to the
send_message handler's catch. -/
theorem c3_counterexample :
    (EmitTarget.direct "s1", ChatEvent.messageError sendFailedError) ∈
      (onSendMessage c3St c4Sock c4Data (fun u => u == 2)).2 ∧
    (onSendMessage c3St c4Sock c4Data (fun u => u == 2)).1.messages ≠ [] := by
  refine ⟨by decide, by decide⟩

/-- C3 amended: a failure raised while creating a NEW_MESSAGE
notification for another participant does not prevent or undo the
message's persistence or its broadcast, but it is not silently
swallowed either: the exception escapes to the send_message handler's
catch, which emits the generic message_error event to the sending
connection. -/
theorem c3_amended_notification_failure (st : SysState) (sock : SocketCtx) (data : SendData)
    (notifFail : Nat → Bool)
    (hp : hasActiveParticipant st data.conversationId sock.userId = true)
    (hc : st.conversations.any (fun c => c.id == data.conversationId) = true)
    (hfail : ∃ p ∈ sendOthers st sock data, notifFail p.userId = true) :
    (onSendMessage st sock data notifFail).1.messages
        = st.messages ++ [sendMsgRow st sock data] ∧
    sendBroadcast st sock data ∈ (onSendMessage st sock data notifFail).2 ∧
    isNewMessageEvent (sendBroadcast st sock data).2 = true ∧
    (EmitTarget.direct sock.id, ChatEvent.messageError sendFailedError) ∈
      (onSendMessage st sock data notifFail).2 := by
  obtain ⟨p0, hf⟩ := exists_find?_eq_some_of_any hp
  have heq := handleSendMessage_authorized st sock data notifFail p0 hf hc
  have hflag : (handleSendMessage st sock data notifFail).2.2 = false := by
    rw [heq]
    exact notifyLoop_fails _ _ hfail
  have hemits : (onSendMessage st sock data notifFail).2 =
      (handleSendMessage st sock data notifFail).2.1 ++
        [(EmitTarget.direct sock.id, ChatEvent.messageError sendFailedError)] := by
    simp only [onSendMessage, hflag, Bool.false_eq_true, if_false]
  refine ⟨send_authorized_messages st sock data notifFail hp hc, ?_, rfl, ?_⟩
  · rw [hemits, heq]
    exact List.mem_append_left _ (List.mem_cons_self _ _)
  · rw [hemits]
    exact List.mem_append_right _ (List.mem_singleton.mpr rfl)

/-- Witness for C3's amended theorem: user 2's notification creation
fails. -/
theorem c3_witness :
    hasActiveParticipant c3St 1 1 = true ∧
    (EmitTarget.direct "s1", ChatEvent.messageError sendFailedError) ∈
      (onSendMessage c3St c4Sock c4Data (fun u => u == 2)).2 := by
  refine ⟨by decide, ?_⟩
  exact (c3_amended_notification_failure c3St c4Sock c4Data (fun u => u == 2)
    (by decide) (by decide)
    ⟨{ id := 2, conversationId := 1, userId := 2, isActive := true, lastReadAt := none },
     by decide, by decide⟩).2.2.2

/-! C10: send authorization is independent of room membership. -/

/-- C10: for an active participant whose connection has not joined the
conversation's broadcast group, a send still persists the message and
broadcasts new_message to the group, and the sending socket is not among
the sockets the new_message broadcast is delivered to. -/
theorem c10_send_independent_of_room (st : SysState) (sock : SocketCtx) (data : SendData)
    (notifFail : Nat → Bool)
    (hp : hasActiveParticipant st data.conversationId sock.userId = true)
    (hc : st.conversations.any (fun c => c.id == data.conversationId) = true)
    (hroom : sock.id ∉ roomMembers st.rooms (RoomKey.conv data.conversationId)) :
    (onSendMessage st sock data notifFail).1.messages
        = st.messages ++ [sendMsgRow st sock data] ∧
    sendBroadcast st sock data ∈ (onSendMessage st sock data notifFail).2 ∧
    (sendBroadcast st sock data).1 = EmitTarget.room (RoomKey.conv data.conversationId) ∧
    isNewMessageEvent (sendBroadcast st sock data).2 = true ∧
    ∀ e ∈ (onSendMessage st sock data notifFail).2, isNewMessageEvent e.2 = true →
      sock.id ∉ deliveredTo (onSendMessage st sock data notifFail).1.rooms e.1 := by
  obtain ⟨p0, hf⟩ := exists_find?_eq_some_of_any hp
  have heq := handleSendMessage_authorized st sock data notifFail p0 hf hc
  have hrooms := send_authorized_rooms st sock data notifFail hp hc
  refine ⟨send_authorized_messages st sock data notifFail hp hc, ?_, rfl, rfl, ?_⟩
  · rcases onSendMessage_emits_cases st sock data notifFail with hcase | hcase <;>
      rw [hcase, heq]
    · exact List.mem_cons_self _ _
    · exact List.mem_append_left _ (List.mem_cons_self _ _)
  · intro e hemem hnew
    rw [hrooms]
    have hshape : e = sendBroadcast st sock data ∨
        (∃ u n, e = (EmitTarget.room (RoomKey.user u), ChatEvent.newNotification n)) ∨
        e = (EmitTarget.direct sock.id, ChatEvent.messageError sendFailedError) := by
      rcases onSendMessage_emits_cases st sock data notifFail with hcase | hcase <;>
        rw [hcase, heq] at hemem
      · rcases List.mem_cons.mp hemem with h | h
        · exact Or.inl h
        · exact Or.inr (Or.inl (notifyLoop_emit_shapes _ _ e h))
      · rcases List.mem_append.mp hemem with h | h
        · rcases List.mem_cons.mp h with h2 | h2
          · exact Or.inl h2
          · exact Or.inr (Or.inl (notifyLoop_emit_shapes _ _ e h2))
        · exact Or.inr (Or.inr (List.mem_singleton.mp h))
    rcases hshape with rfl | ⟨u, n, rfl⟩ | rfl
    · exact hroom
    · exact absurd hnew (by simp [isNewMessageEvent])
    · exact absurd hnew (by simp [isNewMessageEvent])

/-- Witness for C10: in a state with no room memberships at all, the
sender's socket is outside the conversation group yet the send persists
and broadcasts. -/
theorem c10_witness :
    hasActiveParticipant c4St 1 1 = true ∧
    ("s1" ∉ roomMembers c4St.rooms (RoomKey.conv 1)) ∧
    sendBroadcast c4St c4Sock c4Data ∈
      (onSendMessage c4St c4Sock c4Data (fun _ => false)).2 := by
  refine ⟨by decide, by decide, ?_⟩
  exact (c10_send_independent_of_room c4St c4Sock c4Data (fun _ => false)
    (by decide) (by decide) (by decide)).2.1

end TextileChat
